import Mathlib

/-!
Verification of the in5 startup scraper against its specification.

Python strings are modelled as `List Char` (`Str`); Python `None` as
`Option.none`; Python exceptions as `Except Unit` outcomes supplied by the
environment.  External collaborators (Playwright, requests, chromadb) are
modelled at their interface boundary; each such model carries a comment
naming the collaborator behaviour it reflects.
-/

set_option maxRecDepth 4000

/-- Python `str` is modelled as a list of characters. -/
abbrev Str := List Char

/-- Coerce a Lean string literal to the `Str` model. -/
def str (s : String) : Str := s.data

/-- Python `str.lower` (restricted to ASCII letters, which is all the
repository's fixed keyword/suffix data uses). -/
def lowerStr (s : Str) : Str := s.map Char.toLower

/-- Python `\s` whitespace class (ASCII part). -/
def wsChar (c : Char) : Bool :=
  c = ' ' || c = '\t' || c = '\n' || c = '\x0d' || c = '\x0b' || c = '\x0c'

/-- Python `str.strip()`: remove leading and trailing whitespace. -/
def stripWs (s : Str) : Str :=
  ((s.dropWhile wsChar).reverse.dropWhile wsChar).reverse

/-- Does `n` occur at the very start of `h`?  (Model of Python
`str.startswith` for a single pattern.) -/
def leadsSeg : Str → Str → Bool
  | [], _ => true
  | _ :: _, [] => false
  | a :: as, b :: bs => a == b && leadsSeg as bs

/-- Does `n` occur contiguously anywhere inside `h`?  (Model of the Python
substring test `n in h`.) -/
def containsSeg (n : Str) : Str → Bool
  | [] => leadsSeg n []
  | c :: t => leadsSeg n (c :: t) || containsSeg n t

/-- `n` is a contiguous segment of `h` (the propositional counterpart of
`containsSeg`). -/
def SegIn (n h : Str) : Prop := ∃ pre post, h = pre ++ n ++ post

/- ------------------------------------------------------------------ -/
/- Match Validator: `AppScraper._clean_company_name` (app_scraper.py:22-25)
   and the acceptance test `cleaned_company_name in developer_name`
   (app_scraper.py:80-90, 107-114). -/

/-- The regex character class `[,.\s]` preceding the legal-entity suffix. -/
def sepClass (c : Char) : Bool := c = ',' || c = '.' || wsChar c

/-- The regex character class `[\s.]` trailing the legal-entity suffix. -/
def trailClass (c : Char) : Bool := wsChar c || c = '.'

/-- The legal-entity suffix alternatives of the regex
`[,.\s]*(llc|fzco|inc|ltd|co|gmbh)[\s.]*$` in `_clean_company_name`. -/
def legalSuffixes : List Str :=
  [str "llc", str "fzco", str "inc", str "ltd", str "co", str "gmbh"]

/-- Does the pattern `(llc|fzco|inc|ltd|co|gmbh)[\s.]*$` (case-insensitive)
match the whole of `t`? -/
def suffixHere (t : Str) : Bool :=
  legalSuffixes.any fun w =>
    lowerStr (t.take w.length) == w && (t.drop w.length).all trailClass

/-- Does the pattern `[,.\s]*(llc|fzco|inc|ltd|co|gmbh)[\s.]*$`
(case-insensitive) match the whole of `t`?  Because the pattern is anchored
at the end, a match starting at position `i` of the subject always spans to
the end of the string. -/
def tailMatch : Str → Bool
  | [] => false
  | c :: cs => suffixHere (c :: cs) || (sepClass c && tailMatch cs)

/-- Scan for the leftmost position at which the anchored suffix pattern
matches, and cut the string there (the effect of `re.sub(pattern, '', name)`
for this end-anchored pattern). -/
def cleanScan : Str → Str
  | [] => []
  | c :: cs => if tailMatch (c :: cs) then [] else c :: cleanScan cs

/-- `AppScraper._clean_company_name` (app_scraper.py:22-25):
`re.sub(r'[,.\s]*(llc|fzco|inc|ltd|co|gmbh)[\s.]*$', '', name, flags=re.IGNORECASE).strip()`. -/
def cleanCompanyName (s : Str) : Str := stripWs (cleanScan s)

/-- The cleaned and lower-cased query name computed at
app_scraper.py:80 and app_scraper.py:107. -/
def cleanedLowerName (n : Str) : Str := lowerStr (cleanCompanyName n)

/-- The Match Validator: the acceptance test used by both store scrapers
(app_scraper.py:90 and app_scraper.py:114) — clean the query name, lower-case
both strings, and test substring containment. -/
def acceptsMatch (q c : Str) : Bool :=
  containsSeg (cleanedLowerName q) (lowerStr c)

/- Declarative (specification-side) description of the cleaning step, used
to state claim C2 against the executable embedding above. -/

/-- Spec-side reading of the regex: `t` consists of optional separating
punctuation, then a legal-entity suffix (case-insensitively), then optional
trailing punctuation. -/
def PatMatch (t : Str) : Prop :=
  ∃ a s tr, t = a ++ s ++ tr ∧ (∀ c ∈ a, sepClass c = true) ∧
    lowerStr s ∈ legalSuffixes ∧ (∀ c ∈ tr, trailClass c = true)

/-- Spec-side description of the un-stripped cleaning result: either `p` is
the remainder after removing the longest trailing suffix segment (leftmost
match of the end-anchored pattern), or no trailing segment matches and `p`
is the whole name. -/
def CoreClean (q p : Str) : Prop :=
  (∃ suf, q = p ++ suf ∧ PatMatch suf ∧
    ∀ p2 s2, q = p2 ++ s2 → PatMatch s2 → p.length ≤ p2.length) ∨
  ((∀ p2 s2, q = p2 ++ s2 → ¬ PatMatch s2) ∧ p = q)

/-- Spec-side description of the full cleaning step: remove the trailing
legal-entity suffix (with optional surrounding punctuation) and strip
surrounding whitespace. -/
def CleanSpec (q r : Str) : Prop := ∃ p, CoreClean q p ∧ r = stripWs p

/-- Spec-side acceptance: the cleaned query name, lower-cased, is a
substring of the lower-cased publisher name. -/
def SpecAccepts (q c : Str) : Prop :=
  ∃ r, CleanSpec q r ∧ SegIn (lowerStr r) (lowerStr c)

/- ------------------------------------------------------------------ -/
/- App store enrichment: `AppScraper` (app_scraper.py).
   Python scalar values appearing in result dictionaries are modelled by
   `Val` (numeric fields are modelled as integers; no claim computes with
   a fractional score). -/

/-- A Python scalar value stored in a result dictionary. -/
inductive Val where
  | s (v : Str)
  | b (v : Bool)
  | i (v : Int)
deriving DecidableEq

/-- The formatted per-store app record built by
`_format_google_play_details` / `_format_apple_store_details`
(app_scraper.py:27-57).  Every key of those dict literals is always present;
a Python `None` value is `Option.none`. -/
structure AppDetails where
  store : Str
  title : Option Val
  description : Option Val
  genre : Option Val
  installs : Option Val
  score : Option Val
  ratings : Option Val
  free : Option Val
  developer : Option Val
  developerEmail : Option Val
  url : Option Val
deriving DecidableEq

/-- The raw Google Play details dict returned by `app_play_store`
(relevant fields only; `developer` is read both with default `''` for
validation and without default for formatting). -/
structure PlayAppRaw where
  developer : Option Str
  title : Option Val
  description : Option Val
  genre : Option Val
  installs : Option Val
  score : Option Val
  ratings : Option Val
  free : Option Val
  developerEmail : Option Val
  url : Option Val
deriving DecidableEq

/-- The raw iTunes Search API result dict (relevant fields only).
`price` is compared with `0.0`; it is modelled as an integer amount. -/
structure AppleAppRaw where
  artistName : Option Str
  trackName : Option Val
  description : Option Val
  primaryGenreName : Option Val
  averageUserRating : Option Val
  userRatingCount : Option Val
  price : Option Int
  trackViewUrl : Option Val
deriving DecidableEq

/-- `_format_google_play_details` (app_scraper.py:27-41). -/
def formatGooglePlayDetails (d : PlayAppRaw) : AppDetails :=
  { store := str "Google Play"
    title := d.title
    description := d.description
    genre := d.genre
    installs := d.installs
    score := d.score
    ratings := d.ratings
    free := d.free
    developer := d.developer.map Val.s
    developerEmail := d.developerEmail
    url := d.url }

/-- `_format_apple_store_details` (app_scraper.py:43-57).
`installs` and `developerEmail` are hard-coded `None`;
`free` is `details.get('price', -1) == 0.0`. -/
def formatAppleStoreDetails (d : AppleAppRaw) : AppDetails :=
  { store := str "Apple App Store"
    title := d.trackName
    description := d.description
    genre := d.primaryGenreName
    installs := none
    score := d.averageUserRating
    ratings := d.userRatingCount
    free := some (.b (d.price.getD (-1) == 0))
    developer := d.artistName.map Val.s
    developerEmail := none
    url := d.trackViewUrl }

/-- Validation at app_scraper.py:86-90: the cleaned lower-cased company
name is a substring of `details.get('developer', '').lower()`. -/
def playValidates (cleaned : Str) (d : PlayAppRaw) : Bool :=
  containsSeg cleaned (lowerStr (d.developer.getD []))

/-- Validation at app_scraper.py:110-114: the cleaned lower-cased company
name is a substring of `result.get('artistName', '').lower()`. -/
def appleValidates (cleaned : Str) (d : AppleAppRaw) : Bool :=
  containsSeg cleaned (lowerStr (d.artistName.getD []))

/-- The candidate loop of `_scrape_google_play` (app_scraper.py:82-92):
fetch each app's details in rank order and return the first whose developer
validates.  `fetch` models `app_play_store`; a raised exception (`.error`)
aborts the loop and propagates to the enclosing `try`. -/
def googleLoop (cleaned : Str) (fetch : Str → Except Unit PlayAppRaw) :
    List Str → Except Unit (Option AppDetails)
  | [] => .ok none
  | appId :: rest =>
    match fetch appId with
    | .error e => .error e
    | .ok d =>
      if playValidates cleaned d then .ok (some (formatGooglePlayDetails d))
      else googleLoop cleaned fetch rest

/-- `AppScraper._scrape_google_play` (app_scraper.py:71-96).  `search`
models the outcome of `search_play_store` (a raised exception is `.error`);
any exception is caught by the enclosing `try` and the function returns
`None`. -/
def scrapeGooglePlay (companyName : Str) (search : Except Unit (List Str))
    (fetch : Str → Except Unit PlayAppRaw) : Option AppDetails :=
  match search with
  | .error _ => none
  | .ok appIds =>
    match googleLoop (cleanedLowerName companyName) fetch appIds with
    | .error _ => none
    | .ok r => r

/-- The candidate loop of `_scrape_apple_store` (app_scraper.py:109-117):
return the first search result whose artist name validates. -/
def appleLoop (cleaned : Str) : List AppleAppRaw → Option AppDetails
  | [] => none
  | d :: rest =>
    if appleValidates cleaned d then some (formatAppleStoreDetails d)
    else appleLoop cleaned rest

/-- `AppScraper._scrape_apple_store` (app_scraper.py:98-121).  `search`
models `_search_apple_app_store`: a `requests.RequestException` is already
caught inside that helper (yielding `.ok []`), while any other exception
(`.error`) is caught by the outer `try`, returning `None`. -/
def scrapeAppleStore (companyName : Str)
    (search : Except Unit (List AppleAppRaw)) : Option AppDetails :=
  match search with
  | .error _ => none
  | .ok hits => appleLoop (cleanedLowerName companyName) hits

/-- `AppScraper.scrape_apps` (app_scraper.py:123-151): both store scrapers
run in a two-thread pool and their non-`None` results are collected.
`as_completed` yields the futures in a nondeterministic completion order;
only the multiset of collected results is determined, and every claim below
is stated order-insensitively (or with one side absent).  The Google result
is listed first here. -/
def scrapeApps (google apple : Option AppDetails) : List AppDetails :=
  google.toList ++ apple.toList

/- ------------------------------------------------------------------ -/
/- Semantic Indexer: `VectorStore.add_startup_data` (vector_store.py:30-73).
   The ChromaDB collection is modelled at its interface boundary as a list
   of `(id, document, metadata)` entries. -/

/-- The `startup_info` dict assembled in `process_single_company`
(main.py:112-119) and consumed by `add_startup_data`. -/
structure StartupInfo where
  name : Str
  profile_description : Str
  website : Str
  industry : Str
  app_details : List AppDetails
  has_login_signup : Bool
deriving DecidableEq

/-- Python f-string rendering of a dict value (`None` renders as the text
`None`).  The `.get('title', 'N/A')` / `.get('description', '')` defaults in
`add_startup_data` never fire, because `_format_*_details` always emits
those keys. -/
def pyRender : Option Val → Str
  | none => str "None"
  | some (.s v) => v
  | some (.b true) => str "True"
  | some (.b false) => str "False"
  | some (.i n) => (toString n).data

/-- Document construction (vector_store.py:41-46): the profile description
followed by one labelled block per found app. -/
def buildDocument (info : StartupInfo) : Str :=
  info.app_details.foldl
    (fun acc app =>
      acc ++ str "\n\n--- App: " ++ pyRender app.title ++ str " ---\n" ++
        pyRender app.description)
    info.profile_description

/-- Minimal JSON string escaping used by the `json.dumps` model (quote and
backslash; the concrete inputs in this development contain neither control
characters nor non-ASCII text). -/
def jsonEscape (s : Str) : Str :=
  s.foldr (fun c acc =>
    if c = '"' then '\\' :: '"' :: acc
    else if c = '\\' then '\\' :: '\\' :: acc
    else c :: acc) []

/-- `json.dumps` rendering of one scalar value. -/
def dumpVal : Option Val → Str
  | none => str "null"
  | some (.s v) => '"' :: jsonEscape v ++ ['"']
  | some (.b true) => str "true"
  | some (.b false) => str "false"
  | some (.i n) => (toString n).data

/-- One `"key": value` JSON member. -/
def jsonMember (k : String) (v : Option Val) : Str :=
  '"' :: k.data ++ str "\": " ++ dumpVal v

/-- `json.dumps` of one formatted app dict, keys in the insertion order of
`_format_google_play_details` / `_format_apple_store_details`. -/
def dumpApp (a : AppDetails) : Str :=
  str "\x7b" ++
    (List.intercalate (str ", ")
      [jsonMember "store" (some (.s a.store)),
       jsonMember "title" a.title,
       jsonMember "description" a.description,
       jsonMember "genre" a.genre,
       jsonMember "installs" a.installs,
       jsonMember "score" a.score,
       jsonMember "ratings" a.ratings,
       jsonMember "free" a.free,
       jsonMember "developer" a.developer,
       jsonMember "developerEmail" a.developerEmail,
       jsonMember "url" a.url]) ++ str "\x7d"

/-- `json.dumps(app_details)` for the list of found apps. -/
def dumpApps (l : List AppDetails) : Str :=
  str "[" ++ List.intercalate (str ", ") (l.map dumpApp) ++ str "]"

/-- The metadata dict built at vector_store.py:55-61.  Note that `has_app`
is stored as the *string* `"Yes"`/`"No"`, and the matched candidates as the
JSON string `app_details_json`. -/
def buildMetadata (info : StartupInfo) : List (Str × Val) :=
  [(str "name", .s info.name),
   (str "website", .s info.website),
   (str "industry", .s info.industry),
   (str "has_app", .s (if info.app_details.isEmpty then str "No" else str "Yes")),
   (str "app_details_json",
     .s (if info.app_details.isEmpty then str "[]" else dumpApps info.app_details))]

/-- The document id (vector_store.py:49):
`company_name.replace(' ', '-').lower()`. -/
def makeDocId (name : Str) : Str :=
  lowerStr (name.map fun c => if c = ' ' then '-' else c)

/-- One stored ChromaDB entry: id, document text, metadata.  (The embedding
vector is a function of the document text and carries no claim-relevant
information, so it is omitted.) -/
abbrev ChromaEntry := Str × Str × List (Str × Val)

/-- Model of the chromadb `Collection.add` boundary (external collaborator):
`add` inserts a record under a new id, and an id that already exists in the
collection is *not* overwritten — the duplicate insert is ignored (chromadb
logs an `Insert of existing embedding ID` warning; replacement requires
`upsert`/`update`, which the source never calls).  If a chromadb client
raises on the duplicate instead, the `except` at vector_store.py:72 catches
it, leaving the collection in the same state, so this model covers either
client behaviour. -/
def chromaAdd (store : List ChromaEntry) (id doc : Str)
    (md : List (Str × Val)) : List ChromaEntry :=
  if id ∈ store.map (fun e => e.1) then store else store ++ [(id, doc, md)]

/-- `VectorStore.add_startup_data` (vector_store.py:30-73), as a transform
of the stored collection. -/
def addStartupData (store : List ChromaEntry) (info : StartupInfo) :
    List ChromaEntry :=
  chromaAdd store (makeDocId info.name) (buildDocument info)
    (buildMetadata info)

/-- The document currently stored under `id`, if any. -/
def storedDoc (store : List ChromaEntry) (id : Str) : Option Str :=
  (store.find? (fun e => e.1 == id)).map (fun e => e.2.1)

/-- Concrete record used to exercise claim C1: first indexing of "Acme". -/
def infoFirst : StartupInfo :=
  { name := str "Acme", profile_description := str "first version"
    website := str "http://acme.example", industry := str "Tech"
    app_details := [], has_login_signup := false }

/-- Concrete record used to exercise claim C1: re-run of the pipeline on
the same entity with updated content. -/
def infoSecond : StartupInfo :=
  { name := str "Acme", profile_description := str "second version"
    website := str "http://acme.example", industry := str "Tech"
    app_details := [], has_login_signup := false }

/-- Concrete record used to exercise claim C9: one matched candidate. -/
def infoWithApp : StartupInfo :=
  { name := str "Acme", profile_description := str "maker of apps"
    website := str "http://acme.example", industry := str "Tech"
    app_details := [{ store := str "Google Play", title := some (.s (str "Acme App"))
                      description := some (.s (str "An app"))
                      genre := some (.s (str "Tools")), installs := some (.s (str "100+"))
                      score := some (.i 4), ratings := some (.i 25)
                      free := some (.b true), developer := some (.s (str "Acme"))
                      developerEmail := none, url := some (.s (str "http://play.example")) }]
    has_login_signup := true }

/- ------------------------------------------------------------------ -/
/- Paginated Crawler: `InFiveScraper.scrape_by_letter`
   (infive_scraper.py:34-186).  The rendered page is modelled as the
   environment: a sequence of snapshots (one per iteration of the
   `while True` loop), each a list of visible item cards. -/

/-- Outcome of the liveness probe `validation_page.goto`
(infive_scraper.py:131): a response with its `ok` flag, no response
(`None`), or a raised `PlaywrightError`. -/
inductive ProbeResult where
  | response (ok : Bool)
  | noResponse
  | loadError
deriving DecidableEq

/-- One `div.listingDescription` child of a card
(infive_scraper.py:99-116): the `<strong>` label text if present, the
div's full inner text, and whether reading it timed out (the inner
`except PlaywrightTimeoutError: continue`). -/
structure DivItem where
  fault : Bool
  strongText : Option Str
  fullText : Str
deriving DecidableEq

/-- One `div.listingItemLI` card (infive_scraper.py:81-159):
`extractFault` models any per-item exception caught by the item-level
`except` (e.g. a timed-out `inner_text`), `href` the anchor's attribute
(`none` for a missing attribute), `nameText` the `h1.listingTitle` text. -/
structure CardItem where
  extractFault : Bool
  href : Option Str
  nameText : Str
  divs : List DivItem
deriving DecidableEq

/-- One accepted directory entity, as appended at
infive_scraper.py:147-151. -/
structure Startup where
  name : Str
  in5_profile_link : Str
  website : Str
  industry : Str
  profile_description : Str
deriving DecidableEq

/-- Removal of the first occurrence of the non-empty pattern `pat`. -/
def replaceFirstGo (pat : Str) : Str → Str
  | [] => []
  | c :: cs => if leadsSeg pat (c :: cs) then (c :: cs).drop pat.length
               else c :: replaceFirstGo pat cs

/-- Python `str.replace(pat, '', 1)`: remove the first occurrence of a
non-empty `pat` (with an empty pattern the call is a no-op). -/
def replaceFirst (s pat : Str) : Str :=
  if pat.isEmpty then s else replaceFirstGo pat s

/-- `config.BASE_URL` (config.py:8). -/
def BASE_URL : Str := str "https://infive.ae/setup/directory/"

/-- Model of `urllib.parse.urljoin(config.BASE_URL, href)`
(infive_scraper.py:88), restricted to the cases this page exercises: an
absolute href is kept, any other href is resolved against the base
directory.  The claims depend only on this being a deterministic function
of the href. -/
def resolveUrl (base href : Str) : Str :=
  if leadsSeg (str "http://") href || leadsSeg (str "https://") href then href
  else base ++ href

/-- URL normalization at infive_scraper.py:121-122: default to the
`http://` scheme when none is present. -/
def normalizeUrl (w : Str) : Str :=
  if leadsSeg (str "http://") w || leadsSeg (str "https://") w then w
  else str "http://" ++ w

/-- The labelled-field decoding loop (infive_scraper.py:95-116), producing
`(industry, description, website_url)`.  Later labelled divs overwrite
earlier ones, faulted divs are skipped, and the strong label is removed
once from the stripped full text. -/
def extractFields (divs : List DivItem) : Str × Str × Str :=
  divs.foldl
    (fun acc d =>
      if d.fault then acc else
      match d.strongText with
      | none => acc
      | some st0 =>
        let strongText := stripWs st0
        let content := stripWs (replaceFirst (stripWs d.fullText) strongText)
        if containsSeg (str "Industry") strongText then
          (content, acc.2.1, acc.2.2)
        else if containsSeg (str "Profile") strongText then
          (acc.1, content, acc.2.2)
        else if containsSeg (str "Website") strongText then
          (acc.1, acc.2.1, content)
        else acc)
    ([], [], [])

/-- The per-partition crawl state (infive_scraper.py:45-46):
`processed_links` and the accepted rows, in append order. -/
structure CrawlState where
  processed : List Str
  accepted : List Startup
deriving DecidableEq

/-- The empty crawl state. -/
def initCrawlState : CrawlState := { processed := [], accepted := [] }

/-- The startup row appended for a card (infive_scraper.py:147-151); its
`website` field holds the normalized URL when one was extracted. -/
def itemStartup (it : CardItem) (link : Str) : Startup :=
  let f := extractFields it.divs
  { name := stripWs it.nameText
    in5_profile_link := link
    website := if f.2.2.isEmpty then [] else normalizeUrl f.2.2
    industry := f.1
    profile_description := f.2.1 }

/-- Processing of one visible card (infive_scraper.py:81-159): skip on a
per-item fault or a missing/empty href; skip silently when the resolved
profile link was already processed; otherwise extract fields, validate the
website in an isolated context when one is present, append the row only on
a valid (2xx) probe, and finally record the link as processed. -/
def processItem (probe : Str → ProbeResult) (st : CrawlState)
    (it : CardItem) : CrawlState :=
  if it.extractFault then st else
  match it.href with
  | none => st
  | some h =>
    if h.isEmpty then st else
    let link := resolveUrl BASE_URL h
    if link ∈ st.processed then st else
    let f := extractFields it.divs
    let valid : Bool :=
      if f.2.2.isEmpty then true
      else
        match probe (normalizeUrl f.2.2) with
        | .response true => true
        | _ => false
    let st2 :=
      if valid then { st with accepted := st.accepted ++ [itemStartup it link] }
      else st
    { st2 with processed := link :: st2.processed }

/-- The `while True` loop of `scrape_by_letter`: each snapshot is the full
list of currently visible cards (a later "show more" snapshot re-renders
the earlier cards before the new ones). -/
def crawlRounds (probe : Str → ProbeResult) (st : CrawlState)
    (snaps : List (List CardItem)) : CrawlState :=
  snaps.foldl (fun s snap => snap.foldl (processItem probe) s) st

/-- The page environment of one partition run of `scrape_by_letter`:
the initial listing (`none` models the initial wait timing out), whether
the filter click observably changed the listing, the probe behaviour, the
visible-card snapshots, and — when the outer loop faults — after how many
complete snapshots the fault is raised (`faultAfter = some k`).  A fault
anywhere in the loop body is caught by the handler at
infive_scraper.py:184-186. -/
structure LetterEnv where
  initialHref : Option Str
  filterChanged : Bool
  probe : Str → ProbeResult
  snapshots : List (List CardItem)
  faultAfter : Option Nat

/-- `InFiveScraper.scrape_by_letter` (infive_scraper.py:34-186), returning
the rows of the resulting DataFrame.  A timed-out initial load or an
unchanged listing returns the empty result; a fault inside the loop is
caught at line 184 and the function returns `pd.DataFrame(all_startups_data)`
— the rows accepted so far, not necessarily empty. -/
def scrapeByLetter (env : LetterEnv) : List Startup :=
  match env.initialHref with
  | none => []
  | some _ =>
    if !env.filterChanged then []
    else
      let snaps :=
        match env.faultAfter with
        | none => env.snapshots
        | some k => env.snapshots.take k
      (crawlRounds env.probe initCrawlState snaps).accepted

/-- `scrape_letter_task`s under `asyncio.gather` (main.py:189-227): each
letter owns its browsing context and environment; the model's absence of
shared mutable state reflects the per-task `browser.new_context()`
isolation. -/
def runLetters (letters : List Char) (envs : Char → LetterEnv) :
    List (List Startup) :=
  letters.map fun l => scrapeByLetter (envs l)

/-- A card with no website field, resolving to profile link `alpha`. -/
def cardAlpha : CardItem :=
  { extractFault := false, href := some (str "alpha")
    nameText := str "Alpha", divs := [] }

/-- A second rendering of the same card (identical extracted href), as the
directory produces when the page reflows. -/
def cardAlphaAgain : CardItem :=
  { extractFault := false, href := some (str "alpha")
    nameText := str "Alpha", divs := [] }

/-- A probe for which every website is live. -/
def probeAllOk : Str → ProbeResult := fun _ => .response true

/-- A partition environment that accepts one card and then faults in the
outer loop (e.g. the "show more" click raises a non-timeout
PlaywrightError). -/
def envFaultAfterOne : LetterEnv :=
  { initialHref := some (str "alpha"), filterChanged := true
    probe := probeAllOk, snapshots := [[cardAlpha]], faultAfter := some 1 }

/-- A card whose labelled Website field carries a schemeless URL. -/
def cardWithSite : CardItem :=
  { extractFault := false, href := some (str "beta")
    nameText := str "Beta"
    divs := [{ fault := false, strongText := some (str "Website")
               fullText := str "Website example.com" }] }

/-- A probe for which every navigation returns no response. -/
def probeNoResponse : Str → ProbeResult := fun _ => .noResponse

/- ------------------------------------------------------------------ -/
/- Website feature probe: `WebsiteScraper.check_for_login_or_signup`
   (website_scraper.py:28-89). -/

/-- Outcome of `page.goto` in the website scan (website_scraper.py:55-63). -/
inductive NavOutcome where
  | ok
  | timedOut
  | navError
deriving DecidableEq

/-- One interactive element read (website_scraper.py:70-80):
`text_content` may return `None`, or the read may time out. -/
inductive ElementRead where
  | timeout
  | text (t : Option Str)
deriving DecidableEq

/-- The browsing environment of one website scan. -/
structure ScanEnv where
  nav : NavOutcome
  elements : List ElementRead

/-- The result of a scan together with whether any navigation was
performed (whether `page.goto` was reached). -/
structure ScanOutcome where
  result : Bool
  navigated : Bool
deriving DecidableEq

/-- Case-insensitive keyword search of the compiled regex
`re.compile("|".join(config.LOGIN_SIGNUP_KEYWORDS), re.IGNORECASE)`
(website_scraper.py:23-26), for literal keywords.  `LOGIN_SIGNUP_KEYWORDS`
itself is absent from the provided config.py, so the keyword list is a
parameter. -/
def keywordHit (keywords : List Str) (text : Str) : Bool :=
  keywords.any fun k => containsSeg (lowerStr k) (lowerStr text)

/-- The element loop of the scan (website_scraper.py:70-80). -/
def scanElements (keywords : List Str) : List ElementRead → Bool
  | [] => false
  | .timeout :: rest => scanElements keywords rest
  | .text none :: rest => scanElements keywords rest
  | .text (some t) :: rest =>
    if keywordHit keywords t then true else scanElements keywords rest

/-- `WebsiteScraper.check_for_login_or_signup` (website_scraper.py:28-89).
The guard at lines 40-42 returns `False` before any browser work when the
URL is empty or lacks an `http://`/`https://` scheme. -/
def checkForLoginOrSignup (keywords : List Str) (url : Str)
    (env : ScanEnv) : ScanOutcome :=
  if url.isEmpty ||
      !(leadsSeg (str "http://") url || leadsSeg (str "https://") url) then
    { result := false, navigated := false }
  else
    match env.nav with
    | .timedOut => { result := false, navigated := true }
    | .navError => { result := false, navigated := true }
    | .ok => { result := scanElements keywords env.elements, navigated := true }

/- ------------------------------------------------------------------ -/
/- Orchestrator rows: `process_single_company` and the final reindex
   (main.py:40-182). -/

/-- The canonical CSV schema (main.py:32-38). -/
def CSV_HEADERS : List Str :=
  [str "name", str "in5_profile_link", str "website", str "industry",
   str "profile_description", str "has_login_or_signup",
   str "play_store_app_title", str "play_store_app_description",
   str "play_store_app_genre", str "play_store_app_score",
   str "play_store_app_ratings", str "play_store_app_developer",
   str "play_store_app_url",
   str "apple_store_app_title", str "apple_store_app_description",
   str "apple_store_app_genre", str "apple_store_app_score",
   str "apple_store_app_ratings", str "apple_store_app_developer",
   str "apple_store_app_url"]

/-- An output row: a Python dict in insertion order; `none` models both
`np.nan` and `None` (both render as NA downstream). -/
abbrev Row := List (Str × Option Val)

/-- The row of all-NA values built at main.py:49. -/
def initRow : Row := CSV_HEADERS.map fun h => (h, none)

/-- One `dict.update` step for a single key: replace the value when the
key is present, append a new binding otherwise. -/
def updOne (row : Row) (kv : Str × Option Val) : Row :=
  if kv.1 ∈ row.map Prod.fst then
    row.map fun e => if e.1 = kv.1 then kv else e
  else row ++ [kv]

/-- Python `dict.update` with a literal dict (applied key by key in
insertion order). -/
def dictUpdate (row : Row) (kvs : List (Str × Option Val)) : Row :=
  kvs.foldl updOne row

/-- One input record from the harvested CSVs (`df.to_dict('records')`,
main.py:147); a missing/NaN cell is `none`. -/
structure CompanyData where
  name : Option Str
  in5_profile_link : Option Str
  website : Option Str
  industry : Option Str
  profile_description : Option Str
deriving DecidableEq

/-- The processing environment of one company: whether the global scrapers
were initialized (main.py:72-73, 78-79 raise `RuntimeError` otherwise), the
outcome of `scrape_apps` (which never raises, app_scraper.py:123-151), and
the outcome of `check_for_login_or_signup` (which returns a bool). -/
structure ProcEnv where
  appScraperReady : Bool
  websiteScraperReady : Bool
  appDetails : List AppDetails
  hasLogin : Bool

/-- The basic-info update dict (main.py:60-66). -/
def basicKvs (cd : CompanyData) : List (Str × Option Val) :=
  [(str "name", some (.s (cd.name.getD []))),
   (str "in5_profile_link", cd.in5_profile_link.map .s),
   (str "website", cd.website.map .s),
   (str "industry", cd.industry.map .s),
   (str "profile_description", cd.profile_description.map .s)]

/-- The Google Play column update dict (main.py:90-98). -/
def playKvs (p : AppDetails) : List (Str × Option Val) :=
  [(str "play_store_app_title", p.title),
   (str "play_store_app_description", p.description),
   (str "play_store_app_genre", p.genre),
   (str "play_store_app_score", p.score),
   (str "play_store_app_ratings", p.ratings),
   (str "play_store_app_developer", p.developer),
   (str "play_store_app_url", p.url)]

/-- The Apple App Store column update dict (main.py:100-108). -/
def appleKvs (a : AppDetails) : List (Str × Option Val) :=
  [(str "apple_store_app_title", a.title),
   (str "apple_store_app_description", a.description),
   (str "apple_store_app_genre", a.genre),
   (str "apple_store_app_score", a.score),
   (str "apple_store_app_ratings", a.ratings),
   (str "apple_store_app_developer", a.developer),
   (str "apple_store_app_url", a.url)]

/-- The per-store column writes (main.py:85-108): the first found record
per store tag, if any, is flattened into the row. -/
def appStoreColumns (row : Row) (appDetails : List AppDetails) : Row :=
  let play := appDetails.find? fun a => a.store == str "Google Play"
  let apple := appDetails.find? fun a => a.store == str "Apple App Store"
  let rowP :=
    match play with
    | none => row
    | some p => dictUpdate row (playKvs p)
  match apple with
  | none => rowP
  | some a => dictUpdate rowP (appleKvs a)

/-- `process_single_company` (main.py:40-127).  Every early exit — the
missing-name guard and the `except` at main.py:124-127 — returns the row
accumulated so far, whose keys never leave the canonical schema.
`add_startup_data` catches all its own exceptions and does not alter the
row, so the vector-store step is omitted from the row computation. -/
def processSingleCompany (cd : CompanyData) (doApp doWeb : Bool)
    (env : ProcEnv) : Row :=
  if (cd.name.getD []).isEmpty then initRow else
  if doApp && !env.appScraperReady then dictUpdate initRow (basicKvs cd) else
  if doWeb && !env.websiteScraperReady then dictUpdate initRow (basicKvs cd) else
  let appDetails := if doApp then env.appDetails else []
  let hasLogin := if doWeb then env.hasLogin else false
  let row2 := dictUpdate (dictUpdate initRow (basicKvs cd))
    [(str "has_login_or_signup", some (.b hasLogin))]
  if doApp && !appDetails.isEmpty then appStoreColumns row2 appDetails
  else row2

/-- `combined_df.reindex(columns=CSV_HEADERS)` (main.py:178) applied to one
row: select exactly the canonical columns, filling absent ones with NA. -/
def reindexRow (headers : List Str) (row : Row) : Row :=
  headers.map fun h => (h, (List.lookup h row).getD none)

/-- An input record with no company name (main.py:52-55). -/
def cdNoName : CompanyData :=
  { name := none, in5_profile_link := some (str "https://infive.ae/x")
    website := some (str "x.example"), industry := some (str "Tech")
    profile_description := some (str "d") }

/-- A well-formed input record used in concrete scenarios. -/
def cdAcme : CompanyData :=
  { name := some (str "Acme LLC")
    in5_profile_link := some (str "https://infive.ae/acme")
    website := some (str "http://acme.example")
    industry := some (str "Tech")
    profile_description := some (str "makes things") }

/-- A processing environment with both scrapers initialized and no found
apps. -/
def envReady : ProcEnv :=
  { appScraperReady := true, websiteScraperReady := true
    appDetails := [], hasLogin := false }

/-- A concrete Apple App Store search hit whose artist validates against
`"Acme LLC"`. -/
def appleHitAcme : AppleAppRaw :=
  { artistName := some (str "Acme Developers")
    trackName := some (.s (str "Acme Mobile"))
    description := some (.s (str "The Acme app"))
    primaryGenreName := some (.s (str "Business"))
    averageUserRating := some (.i 4)
    userRatingCount := some (.i 120)
    price := some 0
    trackViewUrl := some (.s (str "https://apps.example/acme")) }

/- ================================================================== -/
/- Shared lemmas. -/

theorem leadsSeg_iff (n : Str) : ∀ h : Str, leadsSeg n h = true ↔ ∃ t, h = n ++ t := by
  induction n with
  | nil => intro h; simp [leadsSeg]
  | cons a as ih =>
    intro h
    cases h with
    | nil => simp [leadsSeg]
    | cons b bs =>
      simp only [leadsSeg, Bool.and_eq_true, beq_iff_eq, ih, List.cons_append,
        List.cons.injEq]
      constructor
      · rintro ⟨rfl, t, rfl⟩; exact ⟨t, rfl, rfl⟩
      · rintro ⟨t, rfl, rfl⟩; exact ⟨rfl, t, rfl⟩

theorem containsSeg_iff (n : Str) : ∀ h : Str, containsSeg n h = true ↔ SegIn n h := by
  intro h
  induction h with
  | nil =>
    simp only [containsSeg, leadsSeg_iff, SegIn]
    constructor
    · rintro ⟨t, ht⟩; exact ⟨[], t, ht⟩
    · rintro ⟨pre, post, hp⟩
      rcases List.append_eq_nil.mp hp.symm with ⟨h1, rfl⟩
      rcases List.append_eq_nil.mp h1 with ⟨rfl, rfl⟩
      exact ⟨[], rfl⟩
  | cons c t ih =>
    simp only [containsSeg, Bool.or_eq_true, leadsSeg_iff, ih, SegIn]
    constructor
    · rintro (⟨t2, ht⟩ | ⟨pre, post, hp⟩)
      · exact ⟨[], t2, by simpa using ht⟩
      · exact ⟨c :: pre, post, by simp [hp]⟩
    · rintro ⟨pre, post, hp⟩
      cases pre with
      | nil => exact Or.inl ⟨post, by simpa using hp⟩
      | cons p ps =>
        right
        rw [List.cons_append, List.cons_append, List.cons.injEq] at hp
        exact ⟨ps, post, hp.2⟩

theorem suffixHere_iff (t : Str) :
    suffixHere t = true ↔
      ∃ s tr, t = s ++ tr ∧ lowerStr s ∈ legalSuffixes ∧
        ∀ c ∈ tr, trailClass c = true := by
  simp only [suffixHere, List.any_eq_true, Bool.and_eq_true, beq_iff_eq,
    List.all_eq_true]
  constructor
  · rintro ⟨w, hw, hlow, htr⟩
    exact ⟨t.take w.length, t.drop w.length, (List.take_append_drop _ _).symm,
      by rw [hlow]; exact hw, htr⟩
  · rintro ⟨s, tr, rfl, hmem, htr⟩
    have hl : (lowerStr s).length = s.length := by simp [lowerStr]
    refine ⟨lowerStr s, hmem, ?_, ?_⟩
    · rw [hl, List.take_left]
    · rw [hl, List.drop_left]; exact htr

theorem patMatch_nil : ¬ PatMatch [] := by
  rintro ⟨a, s, tr, heq, _, hmem, _⟩
  rcases List.append_eq_nil.mp heq.symm with ⟨h1, rfl⟩
  rcases List.append_eq_nil.mp h1 with ⟨rfl, rfl⟩
  exact absurd hmem (by decide)

theorem tailMatch_iff : ∀ t : Str, tailMatch t = true ↔ PatMatch t := by
  intro t
  induction t with
  | nil =>
    constructor
    · intro h; simp [tailMatch] at h
    · intro h; exact absurd h patMatch_nil
  | cons c cs ih =>
    simp only [tailMatch, Bool.or_eq_true, Bool.and_eq_true]
    constructor
    · rintro (h | ⟨hsep, htm⟩)
      · obtain ⟨s, tr, heq, hmem, htr⟩ := (suffixHere_iff _).mp h
        exact ⟨[], s, tr, by simpa using heq, by simp, hmem, htr⟩
      · obtain ⟨a, s, tr, heq, hsepa, hmem, htr⟩ := ih.mp htm
        refine ⟨c :: a, s, tr, by simp [heq], ?_, hmem, htr⟩
        intro x hx
        rcases List.mem_cons.mp hx with rfl | hx
        · exact hsep
        · exact hsepa x hx
    · rintro ⟨a, s, tr, heq, hsepa, hmem, htr⟩
      cases a with
      | nil =>
        exact Or.inl ((suffixHere_iff _).mpr ⟨s, tr, by simpa using heq, hmem, htr⟩)
      | cons a0 as =>
        rw [List.cons_append, List.cons_append, List.cons.injEq] at heq
        refine Or.inr ⟨heq.1 ▸ hsepa a0 (by simp), ?_⟩
        refine ih.mpr ⟨as, s, tr, heq.2, ?_, hmem, htr⟩
        intro x hx; exact hsepa x (by simp [hx])

theorem cleanScan_core : ∀ q : Str, CoreClean q (cleanScan q) := by
  intro q
  induction q with
  | nil =>
    right
    refine ⟨?_, rfl⟩
    rintro p2 s2 heq hpm
    rcases List.append_eq_nil.mp heq.symm with ⟨rfl, rfl⟩
    exact patMatch_nil hpm
  | cons c cs ih =>
    cases htm : tailMatch (c :: cs) with
    | true =>
      left
      refine ⟨c :: cs, by simp [cleanScan, htm], (tailMatch_iff _).mp htm, ?_⟩
      intro p2 s2 _ _
      simp [cleanScan, htm]
    | false =>
      have hnp : ¬ PatMatch (c :: cs) := fun hp => by
        rw [(tailMatch_iff _).mpr hp] at htm; exact Bool.true_eq_false.mp htm
      rcases ih with ⟨suf, heq, hpm, hmin⟩ | ⟨hno, hp⟩
      · left
        refine ⟨suf, ?_, hpm, ?_⟩
        · show c :: cs = cleanScan (c :: cs) ++ suf
          simp only [cleanScan, htm, Bool.false_eq_true, if_false]
          rw [List.cons_append, ← heq]
        · rintro p2 s2 heq2 hpm2
          cases p2 with
          | nil => exact absurd (by simpa using heq2 ▸ hpm2) hnp
          | cons p0 ps =>
            rw [List.cons_append, List.cons.injEq] at heq2
            have hle := hmin ps s2 heq2.2 hpm2
            simp only [cleanScan, htm, Bool.false_eq_true, if_false, List.length_cons]
            omega
      · right
        refine ⟨?_, ?_⟩
        · rintro p2 s2 heq2 hpm2
          cases p2 with
          | nil => exact hnp (by simpa using heq2 ▸ hpm2)
          | cons p0 ps =>
            rw [List.cons_append, List.cons.injEq] at heq2
            exact hno ps s2 heq2.2 hpm2
        · simp [cleanScan, htm, hp]

theorem coreClean_unique (q p p2 : Str) :
    CoreClean q p → CoreClean q p2 → p = p2 := by
  rintro (⟨suf, heq, hpm, hmin⟩ | ⟨hno, rfl⟩)
    (⟨suf2, heq2, hpm2, hmin2⟩ | ⟨hno2, rfl⟩)
  · have h1 := hmin p2 suf2 heq2 hpm2
    have h2 := hmin2 p suf heq hpm
    have e1 : q.take p.length = p := by rw [heq]; exact List.take_left _ _
    have e2 : q.take p2.length = p2 := by rw [heq2]; exact List.take_left _ _
    rw [← e1, ← e2, Nat.le_antisymm h2 h1]
  · exact absurd hpm (hno2 p suf heq)
  · exact absurd hpm2 (hno p2 suf2 heq2)
  · rfl

theorem cleanSpec_iff (q r : Str) : CleanSpec q r ↔ r = cleanCompanyName q := by
  constructor
  · rintro ⟨p, hc, rfl⟩
    rw [coreClean_unique q p (cleanScan q) hc (cleanScan_core q)]; rfl
  · rintro rfl
    exact ⟨cleanScan q, cleanScan_core q, rfl⟩

/- ================================================================== -/
/- Claim C2. -/

/-- Claim C2: the Match Validator accepts a (query, publisher) pair exactly
when the query name with a trailing legal-entity suffix stripped
(case-insensitively, with optional surrounding punctuation) and lower-cased
is a substring of the lower-cased publisher name; in particular it accepts
("Acme LLC", "Acme Technologies") and ("ACME, Inc.", "acme studios") and
rejects ("Acme LLC", "Beta Corp"). -/
theorem claim_C2 :
    (∀ q c, acceptsMatch q c = true ↔ SpecAccepts q c) ∧
    acceptsMatch (str "Acme LLC") (str "Acme Technologies") = true ∧
    acceptsMatch (str "Acme LLC") (str "Beta Corp") = false ∧
    acceptsMatch (str "ACME, Inc.") (str "acme studios") = true := by
  refine ⟨fun q c => ?_, by decide, by decide, by decide⟩
  unfold acceptsMatch cleanedLowerName
  rw [containsSeg_iff]
  constructor
  · intro h
    exact ⟨cleanCompanyName q, (cleanSpec_iff q _).mpr rfl, h⟩
  · rintro ⟨r, hc, hseg⟩
    rw [(cleanSpec_iff q r).mp hc] at hseg
    exact hseg

/- ================================================================== -/
/- App scraper lemmas. -/

theorem googleLoop_ok_store (cleaned : Str) (fetch : Str → Except Unit PlayAppRaw) :
    ∀ (ids : List Str) (d : AppDetails),
      googleLoop cleaned fetch ids = .ok (some d) → d.store = str "Google Play" := by
  intro ids
  induction ids with
  | nil => intro d h; simp [googleLoop] at h
  | cons x rest ih =>
    intro d h
    simp only [googleLoop] at h
    split at h
    · exact absurd h (by simp)
    · split at h
      · simp only [Except.ok.injEq, Option.some.injEq] at h
        rw [← h]; rfl
      · exact ih d h

theorem appleLoop_some_shape (cleaned : Str) :
    ∀ (hits : List AppleAppRaw) (d : AppDetails),
      appleLoop cleaned hits = some d → ∃ h, d = formatAppleStoreDetails h := by
  intro hits
  induction hits with
  | nil => intro d h; simp [appleLoop] at h
  | cons x rest ih =>
    intro d h
    simp only [appleLoop] at h
    split at h
    · simp only [Option.some.injEq] at h
      exact ⟨x, h.symm⟩
    · exact ih d h

theorem scrapeGooglePlay_some_store (name : Str) (search : Except Unit (List Str))
    (fetch : Str → Except Unit PlayAppRaw) (d : AppDetails) :
    scrapeGooglePlay name search fetch = some d → d.store = str "Google Play" := by
  intro h
  unfold scrapeGooglePlay at h
  split at h
  · exact absurd h (by simp)
  · rename_i ids
    split at h
    · exact absurd h (by simp)
    · rename_i r hl
      rw [h] at hl
      exact googleLoop_ok_store _ _ ids d hl

theorem scrapeAppleStore_some_store (name : Str)
    (search : Except Unit (List AppleAppRaw)) (d : AppDetails) :
    scrapeAppleStore name search = some d → d.store = str "Apple App Store" := by
  intro h
  unfold scrapeAppleStore at h
  cases search with
  | error e => simp at h
  | ok hits =>
    obtain ⟨hit, rfl⟩ := appleLoop_some_shape _ hits d h
    rfl

theorem googleLoop_first_match (cleaned : Str) (f : Str → PlayAppRaw) :
    ∀ ids : List Str,
      googleLoop cleaned (fun i => Except.ok (f i)) ids =
        .ok (((ids.map f).find? (playValidates cleaned)).map
          formatGooglePlayDetails) := by
  intro ids
  induction ids with
  | nil => simp [googleLoop]
  | cons x rest ih =>
    cases hv : playValidates cleaned (f x) with
    | true => simp [googleLoop, hv, List.find?_cons_of_pos _ hv]
    | false => simp [googleLoop, hv, List.find?_cons_of_neg, ih]

theorem appleLoop_first_match (cleaned : Str) :
    ∀ hits : List AppleAppRaw,
      appleLoop cleaned hits =
        (hits.find? (appleValidates cleaned)).map formatAppleStoreDetails := by
  intro hits
  induction hits with
  | nil => simp [appleLoop]
  | cons x rest ih =>
    cases hv : appleValidates cleaned x with
    | true => simp [appleLoop, hv, List.find?_cons_of_pos _ hv]
    | false => simp [appleLoop, hv, List.find?_cons_of_neg, ih]

/- ================================================================== -/
/- Claim C5. -/

/-- Claim C5: per entity and per store at most one candidate is accepted —
candidates are tried in the source's rank order and the first validated one
is taken, after which the loop stops — so an enrichment result holds 0, 1
or 2 candidates in total, at most one per store. -/
theorem claim_C5 :
    (∀ (name : Str) (gsearch : Except Unit (List Str))
        (gfetch : Str → Except Unit PlayAppRaw)
        (asearch : Except Unit (List AppleAppRaw)),
      (scrapeApps (scrapeGooglePlay name gsearch gfetch)
          (scrapeAppleStore name asearch)).length ≤ 2 ∧
      ((scrapeApps (scrapeGooglePlay name gsearch gfetch)
          (scrapeAppleStore name asearch)).countP
        (fun d => d.store == str "Google Play")) ≤ 1 ∧
      ((scrapeApps (scrapeGooglePlay name gsearch gfetch)
          (scrapeAppleStore name asearch)).countP
        (fun d => d.store == str "Apple App Store")) ≤ 1) ∧
    (∀ (cleaned : Str) (f : Str → PlayAppRaw) (ids : List Str),
      googleLoop cleaned (fun i => Except.ok (f i)) ids =
        .ok (((ids.map f).find? (playValidates cleaned)).map
          formatGooglePlayDetails)) ∧
    (∀ (name : Str) (hits : List AppleAppRaw),
      scrapeAppleStore name (.ok hits) =
        (hits.find? (appleValidates (cleanedLowerName name))).map
          formatAppleStoreDetails) := by
  refine ⟨fun name gsearch gfetch asearch => ?_,
    fun cleaned f ids => googleLoop_first_match cleaned f ids,
    fun name hits => appleLoop_first_match (cleanedLowerName name) hits⟩
  cases hg : scrapeGooglePlay name gsearch gfetch with
  | none =>
    cases ha : scrapeAppleStore name asearch with
    | none => refine ⟨by simp [scrapeApps], ?_, ?_⟩ <;>
        exact (List.countP_le_length _).trans (by simp [scrapeApps])
    | some da => refine ⟨by simp [scrapeApps], ?_, ?_⟩ <;>
        exact (List.countP_le_length _).trans (by simp [scrapeApps])
  | some dg =>
    have hgs := scrapeGooglePlay_some_store name gsearch gfetch dg hg
    cases ha : scrapeAppleStore name asearch with
    | none => refine ⟨by simp [scrapeApps], ?_, ?_⟩ <;>
        exact (List.countP_le_length _).trans (by simp [scrapeApps])
    | some da =>
      have has := scrapeAppleStore_some_store name asearch da ha
      have h1 : ((fun d => d.store == str "Google Play") da) = false := by
        simp only [has]; decide
      have h2 : ((fun d => d.store == str "Apple App Store") dg) = false := by
        simp only [hgs]; decide
      refine ⟨by simp [scrapeApps], ?_, ?_⟩
      · show List.countP _ [dg, da] ≤ 1
        simp only [List.countP_cons, List.countP_nil, h1, Bool.false_eq_true,
          if_false, Nat.add_zero, Nat.zero_add]
        split <;> simp
      · show List.countP _ [dg, da] ≤ 1
        simp only [List.countP_cons, List.countP_nil, h2, Bool.false_eq_true,
          if_false, Nat.add_zero, Nat.zero_add]
        split <;> simp

/- ================================================================== -/
/- Row schema lemmas. -/

theorem mapReplace_keys (row : Row) (kv : Str × Option Val) :
    (row.map (fun e => if e.1 = kv.1 then kv else e)).map Prod.fst =
      row.map Prod.fst := by
  induction row with
  | nil => rfl
  | cons e rest ih =>
    simp only [List.map_cons, ih]
    congr 1
    by_cases he : e.1 = kv.1 <;> simp [he]

theorem updOne_keys_of_mem (row : Row) (kv : Str × Option Val)
    (h : kv.1 ∈ row.map Prod.fst) :
    (updOne row kv).map Prod.fst = row.map Prod.fst := by
  simp only [updOne, if_pos h]
  exact mapReplace_keys row kv

theorem dictUpdate_keys (kvs : List (Str × Option Val)) :
    ∀ row : Row, (∀ kv ∈ kvs, kv.1 ∈ row.map Prod.fst) →
      (dictUpdate row kvs).map Prod.fst = row.map Prod.fst := by
  induction kvs with
  | nil => intro row _; rfl
  | cons kv rest ih =>
    intro row h
    have h1 : kv.1 ∈ row.map Prod.fst := h kv (List.mem_cons_self _ _)
    have hkeys := updOne_keys_of_mem row kv h1
    calc (dictUpdate row (kv :: rest)).map Prod.fst
        = (dictUpdate (updOne row kv) rest).map Prod.fst := rfl
      _ = (updOne row kv).map Prod.fst :=
          ih _ (fun kv2 h2 => by rw [hkeys]; exact h kv2 (List.mem_cons_of_mem _ h2))
      _ = row.map Prod.fst := hkeys

theorem initRow_keys : initRow.map Prod.fst = CSV_HEADERS := by decide

/-- All keys written by the basic-info update (main.py:60-66) are canonical
headers, for any input record. -/
theorem keys_basic (cd : CompanyData) :
    ∀ kv ∈ basicKvs cd, kv.1 ∈ CSV_HEADERS := by
  intro kv hkv
  simp only [basicKvs, List.mem_cons, List.not_mem_nil, or_false] at hkv
  rcases hkv with rfl | rfl | rfl | rfl | rfl <;> · dsimp only; decide

/-- The login-flag key (main.py:82) is a canonical header. -/
theorem keys_login (v : Option Val) :
    ∀ kv ∈ [(str "has_login_or_signup", v)], kv.1 ∈ CSV_HEADERS := by
  intro kv hkv
  simp only [List.mem_cons, List.not_mem_nil, or_false] at hkv
  rcases hkv with rfl
  · dsimp only; decide

/-- All keys of the Google Play column update (main.py:89-98) are canonical
headers. -/
theorem keys_play (p : AppDetails) :
    ∀ kv ∈ playKvs p, kv.1 ∈ CSV_HEADERS := by
  intro kv hkv
  simp only [playKvs, List.mem_cons, List.not_mem_nil, or_false] at hkv
  rcases hkv with rfl | rfl | rfl | rfl | rfl | rfl | rfl <;> · dsimp only; decide

/-- All keys of the Apple App Store column update (main.py:99-108) are
canonical headers. -/
theorem keys_apple (a : AppDetails) :
    ∀ kv ∈ appleKvs a, kv.1 ∈ CSV_HEADERS := by
  intro kv hkv
  simp only [appleKvs, List.mem_cons, List.not_mem_nil, or_false] at hkv
  rcases hkv with rfl | rfl | rfl | rfl | rfl | rfl | rfl <;> · dsimp only; decide

/-- A `dictUpdate` whose keys are all canonical preserves the canonical
schema. -/
theorem dictUpdate_schema (row : Row) (kvs : List (Str × Option Val))
    (h1 : row.map Prod.fst = CSV_HEADERS)
    (h2 : ∀ kv ∈ kvs, kv.1 ∈ CSV_HEADERS) :
    (dictUpdate row kvs).map Prod.fst = CSV_HEADERS := by
  rw [dictUpdate_keys kvs row (fun kv hkv => by rw [h1]; exact h2 kv hkv), h1]

/-- The per-store column writes preserve the canonical schema. -/
theorem appStoreColumns_keys (row : Row) (appDetails : List AppDetails)
    (h : row.map Prod.fst = CSV_HEADERS) :
    (appStoreColumns row appDetails).map Prod.fst = CSV_HEADERS := by
  simp only [appStoreColumns]
  split
  · split
    · exact h
    · exact dictUpdate_schema _ _ h (keys_play _)
  · refine dictUpdate_schema _ _ ?_ (keys_apple _)
    split
    · exact h
    · exact dictUpdate_schema _ _ h (keys_play _)

/-- Every return path of `process_single_company` yields a row whose key
sequence is exactly the canonical header list. -/
theorem processSingleCompany_keys (cd : CompanyData) (doApp doWeb : Bool)
    (env : ProcEnv) :
    (processSingleCompany cd doApp doWeb env).map Prod.fst = CSV_HEADERS := by
  have hrow1 : (dictUpdate initRow (basicKvs cd)).map Prod.fst = CSV_HEADERS :=
    dictUpdate_schema _ _ initRow_keys (keys_basic cd)
  have hrow2 : ∀ v : Option Val,
      (dictUpdate (dictUpdate initRow (basicKvs cd))
        [(str "has_login_or_signup", v)]).map Prod.fst = CSV_HEADERS :=
    fun v => dictUpdate_schema _ _ hrow1 (keys_login v)
  simp only [processSingleCompany]
  split
  · exact initRow_keys
  · split
    · exact hrow1
    · split
      · exact hrow1
      · split <;> split
        · exact appStoreColumns_keys _ _ (hrow2 _)
        · exact hrow2 _
        · exact appStoreColumns_keys _ _ (hrow2 _)
        · exact hrow2 _

/- ================================================================== -/
/- Claim C3. -/

/-- Claim C3: when the Google Play branch fails (raises or finds no
validated match) and the Apple App Store branch succeeds with a validated
match, the enrichment result is exactly the Apple candidate — no Google
entry — and the entity is still processed into a normal fixed-schema row
carrying the Apple data. -/
theorem claim_C3 (name : Str) (gsearch : Except Unit (List Str))
    (gfetch : Str → Except Unit PlayAppRaw) (hits : List AppleAppRaw)
    (d : AppDetails)
    (hg : scrapeGooglePlay name gsearch gfetch = none)
    (ha : scrapeAppleStore name (.ok hits) = some d) :
    scrapeApps (scrapeGooglePlay name gsearch gfetch)
      (scrapeAppleStore name (.ok hits)) = [d] ∧
    d.store = str "Apple App Store" ∧
    (∀ fetch, scrapeGooglePlay name (.error ()) fetch = none) ∧
    (processSingleCompany cdAcme true false
        { appScraperReady := true, websiteScraperReady := true
          appDetails := [d], hasLogin := false }).map Prod.fst = CSV_HEADERS := by
  refine ⟨?_, scrapeAppleStore_some_store name (.ok hits) d ha, fun fetch => rfl,
    processSingleCompany_keys _ _ _ _⟩
  rw [hg, ha]
  rfl

/-- Witness for claim C3 at a concrete environment: the Google Play search
raises, the Apple search returns one validated hit. -/
theorem claim_C3_witness :
    scrapeApps
      (scrapeGooglePlay (str "Acme LLC") (.error ()) (fun _ => .error ()))
      (scrapeAppleStore (str "Acme LLC") (.ok [appleHitAcme])) =
      [formatAppleStoreDetails appleHitAcme] :=
  (claim_C3 (str "Acme LLC") (.error ()) (fun _ => .error ()) [appleHitAcme]
    (formatAppleStoreDetails appleHitAcme) rfl (by decide)).1

/- ================================================================== -/
/- Claim C8. -/

/-- Claim C8: every input record — including those with a missing name and
those whose processing raises — yields a row keyed by exactly the canonical
CSV header set (unpopulated fields present as NA), and the reindexed final
table has the fixed column schema regardless of the input row's keys. -/
theorem claim_C8 :
    (∀ (cd : CompanyData) (doApp doWeb : Bool) (env : ProcEnv),
      (processSingleCompany cd doApp doWeb env).map Prod.fst = CSV_HEADERS) ∧
    (∀ row : Row, (reindexRow CSV_HEADERS row).map Prod.fst = CSV_HEADERS) ∧
    processSingleCompany cdNoName true true envReady = initRow ∧
    initRow = CSV_HEADERS.map (fun h => (h, none)) := by
  refine ⟨processSingleCompany_keys, fun row => ?_, rfl, rfl⟩
  show (CSV_HEADERS.map fun h => (h, (List.lookup h row).getD none)).map
    Prod.fst = CSV_HEADERS
  rw [List.map_map]
  exact List.map_id _

/- ================================================================== -/
/- Claim C10. -/

/-- Claim C10: for an empty or schemeless URL, the website scan returns
False from the guard without performing any navigation. -/
theorem claim_C10 (keywords : List Str) (url : Str) (env : ScanEnv)
    (h : url = [] ∨
      (leadsSeg (str "http://") url || leadsSeg (str "https://") url) = false) :
    (checkForLoginOrSignup keywords url env).result = false ∧
    (checkForLoginOrSignup keywords url env).navigated = false := by
  rcases h with rfl | h2
  · exact ⟨rfl, rfl⟩
  · have hc : (url.isEmpty ||
        !(leadsSeg (str "http://") url || leadsSeg (str "https://") url)) = true := by
      rw [h2]; simp
    unfold checkForLoginOrSignup
    rw [if_pos hc]
    exact ⟨rfl, rfl⟩

/-- Witness for claim C10: a schemeless URL is rejected without navigation,
even though the environment's page would have matched a keyword. -/
theorem claim_C10_witness :
    (checkForLoginOrSignup [str "login"] (str "example.com")
      { nav := .ok, elements := [.text (some (str "login"))] }).result = false ∧
    (checkForLoginOrSignup [str "login"] (str "example.com")
      { nav := .ok, elements := [.text (some (str "login"))] }).navigated = false :=
  claim_C10 [str "login"] (str "example.com")
    { nav := .ok, elements := [.text (some (str "login"))] } (Or.inr (by decide))

/- ================================================================== -/
/- Crawler lemmas. -/

/-- Case analysis of one card step: either the card is skipped outright, or
its fresh link is recorded with the row either rejected (invalid website)
or appended (accepted). -/
theorem processItem_eq (probe : Str → ProbeResult) (st : CrawlState)
    (it : CardItem) :
    processItem probe st it = st ∨
    ∃ link, link ∉ st.processed ∧
      (processItem probe st it =
        { processed := link :: st.processed, accepted := st.accepted } ∨
       processItem probe st it =
        { processed := link :: st.processed,
          accepted := st.accepted ++ [itemStartup it link] }) := by
  simp only [processItem]
  split
  · exact Or.inl rfl
  · split
    · exact Or.inl rfl
    · split
      · exact Or.inl rfl
      · split
        · exact Or.inl rfl
        · rename_i hmem
          refine Or.inr ⟨_, hmem, ?_⟩
          split
          · exact Or.inr rfl
          · split
            · exact Or.inr rfl
            · exact Or.inl rfl

theorem processItem_inv (probe : Str → ProbeResult) (st : CrawlState)
    (it : CardItem)
    (h1 : (st.accepted.map (fun e => e.in5_profile_link)).Nodup)
    (h2 : ∀ e ∈ st.accepted, e.in5_profile_link ∈ st.processed) :
    ((processItem probe st it).accepted.map
      (fun e => e.in5_profile_link)).Nodup ∧
    ∀ e ∈ (processItem probe st it).accepted,
      e.in5_profile_link ∈ (processItem probe st it).processed := by
  rcases processItem_eq probe st it with heq | ⟨link, hmem, heq | heq⟩ <;> rw [heq]
  · exact ⟨h1, h2⟩
  · exact ⟨h1, fun e he => List.mem_cons_of_mem _ (h2 e he)⟩
  · constructor
    · rw [List.map_append, List.nodup_append]
      refine ⟨h1, by simp, ?_⟩
      intro x hx hx2
      simp only [List.map_cons, List.map_nil, List.mem_singleton] at hx2
      obtain ⟨e, he, hel⟩ := List.mem_map.mp hx
      apply hmem
      have hp : e.in5_profile_link ∈ st.processed := h2 e he
      rw [hel, hx2] at hp
      exact hp
    · intro e he
      rcases List.mem_append.mp he with he | he
      · exact List.mem_cons_of_mem _ (h2 e he)
      · rcases List.mem_singleton.mp he with rfl
        exact List.mem_cons_self _ _

theorem crawlRound_inv (probe : Str → ProbeResult) :
    ∀ (items : List CardItem) (st : CrawlState),
      (st.accepted.map (fun e => e.in5_profile_link)).Nodup →
      (∀ e ∈ st.accepted, e.in5_profile_link ∈ st.processed) →
      ((items.foldl (processItem probe) st).accepted.map
        (fun e => e.in5_profile_link)).Nodup ∧
      ∀ e ∈ (items.foldl (processItem probe) st).accepted,
        e.in5_profile_link ∈ (items.foldl (processItem probe) st).processed := by
  intro items
  induction items with
  | nil => intro st ha hb; exact ⟨ha, hb⟩
  | cons it rest ih =>
    intro st ha hb
    have hstep := processItem_inv probe st it ha hb
    exact ih (processItem probe st it) hstep.1 hstep.2

theorem crawlRounds_inv (probe : Str → ProbeResult) :
    ∀ (snaps : List (List CardItem)) (st : CrawlState),
      (st.accepted.map (fun e => e.in5_profile_link)).Nodup →
      (∀ e ∈ st.accepted, e.in5_profile_link ∈ st.processed) →
      ((crawlRounds probe st snaps).accepted.map
        (fun e => e.in5_profile_link)).Nodup ∧
      ∀ e ∈ (crawlRounds probe st snaps).accepted,
        e.in5_profile_link ∈ (crawlRounds probe st snaps).processed := by
  intro snaps
  induction snaps with
  | nil => intro st ha hb; exact ⟨ha, hb⟩
  | cons snap rest ih =>
    intro st ha hb
    have hstep := crawlRound_inv probe snap st ha hb
    exact ih _ hstep.1 hstep.2

theorem processItem_accepted_mono (probe : Str → ProbeResult)
    (st : CrawlState) (it : CardItem) :
    ∃ t, (processItem probe st it).accepted = st.accepted ++ t := by
  rcases processItem_eq probe st it with heq | ⟨link, _, heq | heq⟩ <;> rw [heq]
  · exact ⟨[], by simp⟩
  · exact ⟨[], by simp⟩
  · exact ⟨[itemStartup it link], rfl⟩

theorem crawlRound_accepted_mono (probe : Str → ProbeResult) :
    ∀ (items : List CardItem) (st : CrawlState),
      ∃ t, (items.foldl (processItem probe) st).accepted = st.accepted ++ t := by
  intro items
  induction items with
  | nil => intro st; exact ⟨[], by simp⟩
  | cons it rest ih =>
    intro st
    obtain ⟨t1, h1⟩ := processItem_accepted_mono probe st it
    obtain ⟨t2, h2⟩ := ih (processItem probe st it)
    exact ⟨t1 ++ t2, by rw [List.foldl_cons, h2, h1, List.append_assoc]⟩

theorem crawlRounds_accepted_mono (probe : Str → ProbeResult) :
    ∀ (snaps : List (List CardItem)) (st : CrawlState),
      ∃ t, (crawlRounds probe st snaps).accepted = st.accepted ++ t := by
  intro snaps
  induction snaps with
  | nil => intro st; exact ⟨[], by simp [crawlRounds]⟩
  | cons snap rest ih =>
    intro st
    obtain ⟨t1, h1⟩ := crawlRound_accepted_mono probe snap st
    obtain ⟨t2, h2⟩ := ih (snap.foldl (processItem probe) st)
    exact ⟨t1 ++ t2, by
      show (crawlRounds probe (snap.foldl (processItem probe) st) rest).accepted =
        st.accepted ++ (t1 ++ t2)
      rw [h2, h1, List.append_assoc]⟩

/- ================================================================== -/
/- Claim C4. -/

/-- Claim C4: the accepted sequence of a partition run has pairwise
distinct profile links; a card whose resolved profile link was already
processed is silently skipped; and a run in which two cards yield the same
extracted profile link accepts that entity exactly once. -/
theorem claim_C4 :
    (∀ (probe : Str → ProbeResult) (snaps : List (List CardItem)),
      ((crawlRounds probe initCrawlState snaps).accepted.map
        (fun e => e.in5_profile_link)).Nodup) ∧
    (∀ (probe : Str → ProbeResult) (st : CrawlState) (it : CardItem) (h : Str),
      it.extractFault = false → it.href = some h →
      resolveUrl BASE_URL h ∈ st.processed →
      processItem probe st it = st) ∧
    (crawlRounds probeAllOk initCrawlState
      [[cardAlpha, cardAlphaAgain]]).accepted.length = 1 := by
  refine ⟨fun probe snaps => ?_, fun probe st it h hf hh hmem => ?_, by decide⟩
  · exact (crawlRounds_inv probe snaps initCrawlState (by simp [initCrawlState])
      (by simp [initCrawlState])).1
  · cases hhe : h.isEmpty with
    | true => simp [processItem, hf, hh, hhe]
    | false => simp [processItem, hf, hh, hhe, hmem]

/-- Witness for claim C4's skip conjunct: re-processing an already-seen
card leaves the state unchanged. -/
theorem claim_C4_witness :
    processItem probeAllOk
      { processed := [resolveUrl BASE_URL (str "alpha")], accepted := [] }
      cardAlpha =
      { processed := [resolveUrl BASE_URL (str "alpha")], accepted := [] } :=
  claim_C4.2.1 probeAllOk
    { processed := [resolveUrl BASE_URL (str "alpha")], accepted := [] }
    cardAlpha (str "alpha") rfl rfl (by decide)

/- ================================================================== -/
/- Claim C6. -/

/-- Claim C6: for a fresh card with a non-empty extracted website URL, the
probed URL is the extracted URL prefixed with `http://` when no scheme is
present; a probe outcome other than an OK response leaves the row out of
the accepted set while still marking the link processed; a probe that
returns an OK response appends the row. -/
theorem claim_C6 (probe : Str → ProbeResult) (st : CrawlState)
    (it : CardItem) (h w : Str)
    (hf : it.extractFault = false) (hh : it.href = some h)
    (hne : h.isEmpty = false)
    (hmem : resolveUrl BASE_URL h ∉ st.processed)
    (hw : (extractFields it.divs).2.2 = w) (hwne : w.isEmpty = false) :
    ((leadsSeg (str "http://") w || leadsSeg (str "https://") w) = false →
      normalizeUrl w = str "http://" ++ w) ∧
    (probe (normalizeUrl w) ≠ .response true →
      (processItem probe st it).accepted = st.accepted ∧
      resolveUrl BASE_URL h ∈ (processItem probe st it).processed) ∧
    (probe (normalizeUrl w) = .response true →
      (processItem probe st it).accepted =
        st.accepted ++ [itemStartup it (resolveUrl BASE_URL h)] ∧
      resolveUrl BASE_URL h ∈ (processItem probe st it).processed) := by
  refine ⟨fun hns => ?_, fun hbad => ?_, fun hok => ?_⟩
  · simp [normalizeUrl, hns]
  · cases hp : probe (normalizeUrl w) with
    | response ok =>
      cases ok with
      | true => exact absurd hp hbad
      | false =>
        constructor <;> simp [processItem, hf, hh, hne, hmem, hw, hwne, hp]
    | noResponse =>
      constructor <;> simp [processItem, hf, hh, hne, hmem, hw, hwne, hp]
    | loadError =>
      constructor <;> simp [processItem, hf, hh, hne, hmem, hw, hwne, hp]
  · constructor <;> simp [processItem, hf, hh, hne, hmem, hw, hwne, hok]

/-- Witness for claim C6 at a concrete card with a schemeless website URL
and a probe that yields no response: the row is excluded but the link is
recorded as processed. -/
theorem claim_C6_witness :
    (processItem probeNoResponse initCrawlState cardWithSite).accepted = [] ∧
    resolveUrl BASE_URL (str "beta") ∈
      (processItem probeNoResponse initCrawlState cardWithSite).processed :=
  (claim_C6 probeNoResponse initCrawlState cardWithSite (str "beta")
    (str "example.com") rfl rfl rfl (by decide) (by decide) rfl).2.1
    (by decide)

/- ================================================================== -/
/- Claim C7. -/

/-- Counterexample to claim C7 as stated: a partition whose outer crawl
loop faults after one complete round does *not* yield an empty result —
the `except` at infive_scraper.py:184-186 returns the rows accepted before
the fault. -/
theorem claim_C7_counterexample :
    envFaultAfterOne.faultAfter = some 1 ∧
    scrapeByLetter envFaultAfterOne =
      [itemStartup cardAlpha (str "https://infive.ae/setup/directory/alpha")] ∧
    scrapeByLetter envFaultAfterOne ≠ [] := by
  refine ⟨rfl, by decide, by decide⟩

/-- Claim C7 as amended: a fault inside a partition's crawl is caught and
yields, for that partition only, the rows accepted before the fault — a
prefix of the fault-free result, empty when the fault precedes any
acceptance — and sibling partitions, each owning its environment, are
unaffected. -/
theorem claim_C7_amended (env : LetterEnv) (k : Nat)
    (hfa : env.faultAfter = some k) :
    (∃ t, scrapeByLetter { env with faultAfter := none } =
      scrapeByLetter env ++ t) ∧
    (k = 0 → scrapeByLetter env = []) ∧
    (∀ (letters : List Char) (envs envs2 : Char → LetterEnv) (l : Char),
      (∀ l2, l2 ≠ l → envs l2 = envs2 l2) →
      ∀ l2 ∈ letters, l2 ≠ l →
        scrapeByLetter (envs l2) = scrapeByLetter (envs2 l2)) := by
  refine ⟨?_, fun hk => ?_, fun letters envs envs2 l hagree l2 _ hne => by
    rw [hagree l2 hne]⟩
  · unfold scrapeByLetter
    cases hinit : env.initialHref with
    | none => exact ⟨[], rfl⟩
    | some s =>
      cases hfc : env.filterChanged with
      | false => exact ⟨[], rfl⟩
      | true =>
        simp only [hfa, Bool.not_true, Bool.false_eq_true, if_false]
        have hsplit : env.snapshots = env.snapshots.take k ++ env.snapshots.drop k :=
          (List.take_append_drop k env.snapshots).symm
        obtain ⟨t, ht⟩ := crawlRounds_accepted_mono env.probe (env.snapshots.drop k)
          (crawlRounds env.probe initCrawlState (env.snapshots.take k))
        refine ⟨t, ?_⟩
        conv_lhs => rw [hsplit]
        rw [show crawlRounds env.probe initCrawlState
            (env.snapshots.take k ++ env.snapshots.drop k) =
            crawlRounds env.probe
              (crawlRounds env.probe initCrawlState (env.snapshots.take k))
              (env.snapshots.drop k) from List.foldl_append _ _ _ _]
        exact ht
  · unfold scrapeByLetter
    cases hinit : env.initialHref with
    | none => rfl
    | some s =>
      cases hfc : env.filterChanged with
      | false => rfl
      | true =>
        simp only [hfa, hk, Bool.not_true, Bool.false_eq_true, if_false]
        rfl

/-- Witness for claim C7 as amended, at the concrete faulting partition. -/
theorem claim_C7_amended_witness :
    ∃ t, scrapeByLetter { envFaultAfterOne with faultAfter := none } =
      scrapeByLetter envFaultAfterOne ++ t :=
  (claim_C7_amended envFaultAfterOne 1 rfl).1

/- ================================================================== -/
/- Claim C1. -/

/-- Counterexample to claim C1 as stated: indexing two records that share
the normalized identity `acme` leaves one document whose content is the
*first* input's content, not the latest — `collection.add` does not replace
an existing id. -/
theorem claim_C1_counterexample :
    makeDocId infoFirst.name = makeDocId infoSecond.name ∧
    addStartupData (addStartupData [] infoFirst) infoSecond =
      [(str "acme", str "first version", buildMetadata infoFirst)] ∧
    storedDoc (addStartupData (addStartupData [] infoFirst) infoSecond)
      (makeDocId infoSecond.name) = some (str "first version") ∧
    buildDocument infoSecond = str "second version" ∧
    str "first version" ≠ str "second version" := by
  exact ⟨rfl, by decide, by decide, rfl, by decide⟩

/-- Claim C1 as amended: upserting twice under one normalized identity
leaves exactly one stored document, and the second call is ignored — the
store is unchanged and the stored content is the first input's document,
not the latest. -/
theorem claim_C1_amended (i i2 : StartupInfo)
    (h : makeDocId i.name = makeDocId i2.name) :
    addStartupData (addStartupData [] i) i2 = addStartupData [] i ∧
    (addStartupData (addStartupData [] i) i2).map (fun e => e.1) =
      [makeDocId i.name] ∧
    storedDoc (addStartupData (addStartupData [] i) i2) (makeDocId i.name) =
      some (buildDocument i) := by
  have h1 : addStartupData [] i =
      [(makeDocId i.name, buildDocument i, buildMetadata i)] := by
    unfold addStartupData chromaAdd
    rw [if_neg (by simp)]
    rfl
  have h2 : addStartupData (addStartupData [] i) i2 = addStartupData [] i := by
    rw [h1]
    unfold addStartupData chromaAdd
    rw [if_pos (by simp [← h])]
  refine ⟨h2, ?_, ?_⟩
  · rw [h2, h1]; rfl
  · rw [h2, h1]
    unfold storedDoc
    simp [List.find?]

/-- Witness for claim C1 as amended: the concrete colliding pair. -/
theorem claim_C1_amended_witness :
    addStartupData (addStartupData [] infoFirst) infoSecond =
      addStartupData [] infoFirst :=
  (claim_C1_amended infoFirst infoSecond rfl).1

/- ================================================================== -/
/- Claim C9. -/

/-- Counterexample to claim C9 as stated: the metadata stored for a record
with a matched candidate carries no boolean value at all — the match flag
`has_app` is the *string* `"Yes"`, not the boolean true. -/
theorem claim_C9_counterexample :
    infoWithApp.app_details ≠ [] ∧
    List.lookup (str "has_app") (buildMetadata infoWithApp) =
      some (.s (str "Yes")) ∧
    (∀ b : Bool, ∀ kv ∈ buildMetadata infoWithApp, kv.2 ≠ Val.b b) := by
  exact ⟨by decide, by decide, by decide⟩

/-- Claim C9 as amended: the stored metadata includes a `has_app` flag as
the string `"Yes"`/`"No"`, equal to `"Yes"` exactly when at least one
candidate was matched, and an `app_details_json` field holding the JSON
serialization of all matched candidates (`"[]"` when there are none). -/
theorem claim_C9_amended (info : StartupInfo) :
    List.lookup (str "has_app") (buildMetadata info) =
      some (.s (if info.app_details.isEmpty then str "No" else str "Yes")) ∧
    (List.lookup (str "has_app") (buildMetadata info) =
      some (.s (str "Yes")) ↔ info.app_details ≠ []) ∧
    List.lookup (str "app_details_json") (buildMetadata info) =
      some (.s (if info.app_details.isEmpty then str "[]"
        else dumpApps info.app_details)) ∧
    dumpApps [] = str "[]" := by
  refine ⟨rfl, ?_, rfl, rfl⟩
  have h1 : List.lookup (str "has_app") (buildMetadata info) =
      some (.s (if info.app_details.isEmpty then str "No" else str "Yes")) := rfl
  rw [h1]
  cases happ : info.app_details with
  | nil => simp; decide
  | cons a l => simp

/-- Witness for claim C2 at the concrete accepted pair. -/
theorem claim_C2_witness :
    acceptsMatch (str "Acme LLC") (str "Acme Technologies") = true :=
  claim_C2.2.1

/-- Witness for claim C9 as amended, at the concrete record with one
matched candidate. -/
theorem claim_C9_amended_witness :
    List.lookup (str "has_app") (buildMetadata infoWithApp) =
      some (.s (if infoWithApp.app_details.isEmpty then str "No"
        else str "Yes")) :=
  (claim_C9_amended infoWithApp).1
